import Mathlib

/-!
Verification of the PrismExtract color-quantization core
(`src/lib/colorExtractor.ts` and the synthetic-palette example's
`hslToRgb`), shallowly embedded in Lean.

Pixels carry 8-bit channels; we model channel values as `Nat` (all
reachable values stay in 0..255, and the claims quantify over that
domain).  JavaScript's stable in-place `Array.prototype.sort` with the
comparator `(a, b) => a[channel] - b[channel]` is modelled by the stable
`List.insertionSort` with the corresponding `≤` on the selected channel:
a stable sort by a total preorder is determined up to equality by its
input, so any stable sort gives the same list.  `Math.round(x)` on a
nonnegative rational is `⌊x + 1/2⌋`.
-/

namespace PrismExtract

/-- The RGB record of `colorExtractor.ts`. -/
structure RGB where
  r : Nat
  g : Nat
  b : Nat
deriving DecidableEq, Repr

/-- A decoded RGBA pixel as read from the canvas in `extractColors`. -/
structure RGBA where
  r : Nat
  g : Nat
  b : Nat
  a : Nat
deriving DecidableEq, Repr

/-- The ColorInfo record of `colorExtractor.ts`. -/
structure ColorInfo where
  id : String
  rgb : RGB
  hex : String
  count : Nat
deriving DecidableEq, Repr

/-- JavaScript `Math.round (a / len)` for naturals, `len > 0`:
`⌊a/len + 1/2⌋ = (2a + len) / (2 len)` in natural division. -/
def roundDiv (a len : Nat) : Nat := (2 * a + len) / (2 * len)

/-- `averageColor` of `colorExtractor.ts`: component-wise mean, rounded;
black for an empty bucket. -/
def averageColor (pixels : List RGB) : RGB :=
  if pixels.length = 0 then ⟨0, 0, 0⟩
  else
    let sum := pixels.foldl
      (fun acc p => ⟨acc.r + p.r, acc.g + p.g, acc.b + p.b⟩)
      (⟨0, 0, 0⟩ : RGB)
    ⟨roundDiv sum.r pixels.length,
     roundDiv sum.g pixels.length,
     roundDiv sum.b pixels.length⟩

/-- The `ranges` accumulator of `medianCut`, initialised to
min = 255, max = 0 per channel. -/
structure ChannelRanges where
  rMin : Nat
  rMax : Nat
  gMin : Nat
  gMax : Nat
  bMin : Nat
  bMax : Nat
deriving DecidableEq, Repr

/-- The `pixels.forEach` fold of `medianCut` computing per-channel
min and max. -/
def computeRanges (pixels : List RGB) : ChannelRanges :=
  pixels.foldl
    (fun acc p =>
      ⟨min acc.rMin p.r, max acc.rMax p.r,
       min acc.gMin p.g, max acc.gMax p.g,
       min acc.bMin p.b, max acc.bMax p.b⟩)
    ⟨255, 0, 255, 0, 255, 0⟩

/-- `rRange = ranges.r.max - ranges.r.min` of `medianCut`. -/
def rRangeOf (pixels : List RGB) : Nat :=
  (computeRanges pixels).rMax - (computeRanges pixels).rMin

/-- `gRange = ranges.g.max - ranges.g.min` of `medianCut`. -/
def gRangeOf (pixels : List RGB) : Nat :=
  (computeRanges pixels).gMax - (computeRanges pixels).gMin

/-- `bRange = ranges.b.max - ranges.b.min` of `medianCut`. -/
def bRangeOf (pixels : List RGB) : Nat :=
  (computeRanges pixels).bMax - (computeRanges pixels).bMin

/-- `maxRange = Math.max(rRange, gRange, bRange)` of `medianCut`. -/
def maxRangeOf (pixels : List RGB) : Nat :=
  max (rRangeOf pixels) (max (gRangeOf pixels) (bRangeOf pixels))

/-- The three color channels. -/
inductive Channel
  | r
  | g
  | b
deriving DecidableEq, Repr

/-- Channel projection `pixel[channel]`. -/
def Channel.val : Channel → RGB → Nat
  | .r, p => p.r
  | .g, p => p.g
  | .b, p => p.b

/-- The channel-selection of `medianCut`, line for line:
`let channel = 'r'; if (maxRange === gRange) channel = 'g';
else if (maxRange === bRange) channel = 'b';`. -/
def selectChannel (pixels : List RGB) : Channel :=
  if maxRangeOf pixels = gRangeOf pixels then .g
  else if maxRangeOf pixels = bRangeOf pixels then .b
  else .r

/-- `pixels.sort((a, b) => a[channel] - b[channel])`: a stable
ascending sort by the selected channel's value. -/
def sortByChannel (ch : Channel) (pixels : List RGB) : List RGB :=
  pixels.insertionSort (fun a b => ch.val a ≤ ch.val b)

/-- `medianCut` of `colorExtractor.ts`.  Base case when depth is 0 or
the bucket is empty; otherwise sort by the widest channel, split at
`mid = ⌊length/2⌋`, recurse, lower half first. -/
def medianCut : List RGB → Nat → List RGB
  | pixels, 0 => [averageColor pixels]
  | pixels, depth + 1 =>
    if pixels.length = 0 then [averageColor pixels]
    else
      let sorted := sortByChannel (selectChannel pixels) pixels
      let mid := sorted.length / 2
      medianCut (sorted.take mid) depth ++ medianCut (sorted.drop mid) depth

/-- `Math.ceil(Math.log2 n)` for `n ≥ 1`: the least `d` with
`n ≤ 2 ^ d`, computed by fuelled search (fuel `n` suffices since the
answer is at most `n`).  `extractColors` only calls this with
`colorCount ≥ 1`. -/
def ceilLog2Go : Nat → Nat → Nat → Nat
  | 0, _, _ => 0
  | fuel + 1, n, d => if n ≤ 2 ^ d then d else ceilLog2Go fuel n (d + 1)

/-- `const depth = Math.ceil(Math.log2(colorCount))` of `extractColors`. -/
def ceilLog2 (n : Nat) : Nat := ceilLog2Go n n 0

/-- The quantization pipeline of `extractColors` after pixel filtering:
`depth = ceil(log2 colorCount)`, `medianCut`, then
`colors.slice(0, colorCount)`. -/
def extractColorsCore (pixels : List RGB) (colorCount : Nat) : List RGB :=
  let depth := ceilLog2 colorCount
  (medianCut pixels depth).take colorCount

/-- The per-pixel filter of `extractColors`:
`a > 125 && !(r > 240 && g > 240 && b > 240) && !(r < 15 && g < 15 && b < 15)`. -/
def keepPixel (p : RGBA) : Bool :=
  decide (p.a > 125) &&
    !(decide (p.r > 240) && decide (p.g > 240) && decide (p.b > 240)) &&
    !(decide (p.r < 15) && decide (p.g < 15) && decide (p.b < 15))

/-- The pixel-extraction loop of `extractColors`: keep each decoded RGBA
pixel passing `keepPixel`, dropping the alpha channel, in image order. -/
def filterPixels (data : List RGBA) : List RGB :=
  (data.filter keepPixel).map fun p => ⟨p.r, p.g, p.b⟩

/-- `stops[index]` rendered into the template literal; a JavaScript
out-of-range index reads `undefined` and stringifies to "undefined". -/
def stopAt (stops : List Nat) (i : Nat) : String :=
  match stops[i]? with
  | some s => toString s
  | none => "undefined"

/-- `generateGradient` of `colorExtractor.ts`. -/
def generateGradient (colors : List ColorInfo) (angle : Nat) (stops : List Nat) :
    String :=
  let colorStops := String.intercalate ", "
    (colors.enum.map fun ic => ic.2.hex ++ " " ++ stopAt stops ic.1 ++ "%")
  "linear-gradient(" ++ toString angle ++ "deg, " ++ colorStops ++ ")"

/-- `toHex` inside `rgbToHex`: `n.toString(16)` (lowercase), left-padded
with '0' to two characters.  On the claims' domain of integers in
0..255, `Math.round` is the identity. -/
def toHexPadded (n : Nat) : List Char :=
  let hex := Nat.toDigits 16 n
  if hex.length = 1 then '0' :: hex else hex

/-- `rgbToHex` of `colorExtractor.ts`. -/
def rgbToHex (r g b : Nat) : String :=
  String.mk ('#' :: (toHexPadded r ++ toHexPadded g ++ toHexPadded b))

/-- Value of one hex digit, lowercase or uppercase. -/
def hexDigitVal (c : Char) : Option Nat :=
  if '0' ≤ c ∧ c ≤ '9' then some (c.toNat - '0'.toNat)
  else if 'a' ≤ c ∧ c ≤ 'f' then some (c.toNat - 'a'.toNat + 10)
  else if 'A' ≤ c ∧ c ≤ 'F' then some (c.toNat - 'A'.toNat + 10)
  else none

/-- Modelled from the spec: `hexToRgb`, the decoder inverse to
`rgbToHex` referenced by the spec's hex round-trip property ("for all
RGB triples in [0,255]^3, hexToRgb(rgbToHex(r,g,b)) === (r,g,b)"); no
decoder exists under src/.  It parses `#rrggbb`: two hex digits per
channel after a leading '#'. -/
def hexToRgb (s : String) : Option (Nat × Nat × Nat) :=
  match s.data with
  | ['#', r1, r2, g1, g2, b1, b2] =>
    match hexDigitVal r1, hexDigitVal r2, hexDigitVal g1, hexDigitVal g2,
        hexDigitVal b1, hexDigitVal b2 with
    | some hr1, some hr2, some hg1, some hg2, some hb1, some hb2 =>
      some (16 * hr1 + hr2, 16 * hg1 + hg2, 16 * hb1 + hb2)
    | _, _, _, _, _, _ => none
  | _ => none

/-- The leaf buckets of the `medianCut` recursion: same control flow as
`medianCut`, but each leaf yields the bucket itself instead of its
average color. -/
def medianCutBuckets : List RGB → Nat → List (List RGB)
  | pixels, 0 => [pixels]
  | pixels, depth + 1 =>
    if pixels.length = 0 then [pixels]
    else
      let sorted := sortByChannel (selectChannel pixels) pixels
      let mid := sorted.length / 2
      medianCutBuckets (sorted.take mid) depth ++
        medianCutBuckets (sorted.drop mid) depth

/-- The state of the caller's `pixels` array after `medianCut(pixels,
depth)` returns.  In the source, `Array.prototype.sort` mutates the
argument in place, while `Array.prototype.slice` copies, so the
recursive calls mutate fresh copies and only the top-level sort touches
the caller's array; at the base cases the array is untouched. -/
def medianCutFinal : List RGB → Nat → List RGB
  | pixels, 0 => pixels
  | pixels, _ + 1 =>
    if pixels.length = 0 then pixels
    else sortByChannel (selectChannel pixels) pixels

/-- JavaScript `Math.round x` = `⌊x + 1/2⌋` (round half toward +∞). -/
def jsRound (x : ℚ) : ℤ := ⌊x + 1 / 2⌋

/-- JavaScript `a % b` on numbers (remainder with the dividend's sign,
quotient truncated toward zero), on exact rationals. -/
def jsMod (a b : ℚ) : ℚ :=
  a - b * (if 0 ≤ a / b then ((⌊a / b⌋ : ℤ) : ℚ) else ((⌈a / b⌉ : ℤ) : ℚ))

/-- `hslToRgb` of the example App.tsx, over exact rationals; at the
claims' boundary inputs every intermediate double is exactly
representable, so the rational model agrees with the source. -/
def hslToRgb (h s l : ℚ) : ℤ × ℤ × ℤ :=
  let s' := s / 100
  let l' := l / 100
  let k : ℚ → ℚ := fun n => jsMod (n + h / 30) 12
  let a : ℚ := s' * min l' (1 - l')
  let f : ℚ → ℚ := fun n =>
    l' - a * max (-1) (min (k n - 3) (min (9 - k n) 1))
  (jsRound (255 * f 0), jsRound (255 * f 8), jsRound (255 * f 4))

/-! ## Helper lemmas -/

/-- A channel sort permutes its input. -/
theorem sortByChannel_perm (ch : Channel) (pixels : List RGB) :
    (sortByChannel ch pixels).Perm pixels :=
  List.perm_insertionSort _ _

/-- The leaf buckets of the recursion concatenate to a permutation of
the input. -/
theorem medianCutBuckets_flatten_perm (depth : Nat) :
    ∀ pixels : List RGB,
      ((medianCutBuckets pixels depth).flatten).Perm pixels := by
  induction depth with
  | zero =>
    intro pixels
    simp [medianCutBuckets]
  | succ d ih =>
    intro pixels
    by_cases h : pixels.length = 0
    · simp [medianCutBuckets, h]
    · simp only [medianCutBuckets, if_neg h]
      rw [List.flatten_append]
      refine ((ih _).append (ih _)).trans ?_
      rw [List.take_append_drop]
      exact sortByChannel_perm _ _

/-- `medianCut` is the average of each leaf bucket, in leaf order. -/
theorem medianCut_eq_buckets_map (depth : Nat) :
    ∀ pixels : List RGB,
      medianCut pixels depth =
        (medianCutBuckets pixels depth).map averageColor := by
  induction depth with
  | zero =>
    intro pixels
    simp [medianCut, medianCutBuckets]
  | succ d ih =>
    intro pixels
    by_cases h : pixels.length = 0
    · simp [medianCut, medianCutBuckets, h]
    · simp only [medianCut, medianCutBuckets, if_neg h]
      rw [List.map_append, ih, ih]

/-! ## Claims -/

/-- C1: the claim states that `extractColors` returns exactly
`colorCount` colors for every pixel list and every `colorCount` in
1..16.  The code truncates with `slice(0, colorCount)` but never pads,
and an empty half-bucket collapses to a single color instead of
`2 ^ depth` of them, so a single-pixel list with `colorCount = 4`
produces only 3 colors — contradicting the function's own doc comment
("array of exactly colorCount colors"). -/
theorem extractColorsCore_count_bug :
    extractColorsCore [⟨100, 150, 200⟩] 4 =
      [⟨0, 0, 0⟩, ⟨0, 0, 0⟩, ⟨100, 150, 200⟩] ∧
    (extractColorsCore [⟨100, 150, 200⟩] 4).length ≠ 4 := by
  decide

/-- C2: the claim states that quantizing the empty pixel list with
requested count `n` yields `n` black colors.  The code's base case
`pixels.length === 0` fires at the top of the recursion and returns a
single black, and `slice` cannot pad, so for `n = 2` the result is one
black color, not two — again contradicting the doc comment promising
exactly `colorCount` colors. -/
theorem extractColorsCore_empty_bug :
    extractColorsCore ([] : List RGB) 2 = [⟨0, 0, 0⟩] ∧
    (extractColorsCore ([] : List RGB) 2).length ≠ 2 := by
  decide

/-- C3 counterexample: on a pixel set whose three channel ranges are
all equal (and positive), the code selects the green channel, not the
red one claimed by the spec: `channel` is initialised to red but the
first conditional `maxRange === gRange` wins every three-way tie. -/
theorem selectChannel_tie_counterexample :
    rRangeOf [⟨0, 0, 0⟩, ⟨10, 10, 10⟩] = gRangeOf [⟨0, 0, 0⟩, ⟨10, 10, 10⟩] ∧
    gRangeOf [⟨0, 0, 0⟩, ⟨10, 10, 10⟩] = bRangeOf [⟨0, 0, 0⟩, ⟨10, 10, 10⟩] ∧
    selectChannel [⟨0, 0, 0⟩, ⟨10, 10, 10⟩] ≠ Channel.r := by
  decide

/-- C3 (amended): the tie-break priority among maximal channel ranges
is green before blue before red.  Green is chosen whenever its range is
maximal (so every tie involving green goes to green); blue is chosen
whenever green's range is not maximal but blue's is (so a red-blue tie
goes to blue); red is chosen only when its range is strictly greatest;
and in particular, when all three ranges are equal, the bucket is split
on green. -/
theorem selectChannel_tie_priority (pixels : List RGB) :
    (gRangeOf pixels = maxRangeOf pixels → selectChannel pixels = Channel.g) ∧
    (gRangeOf pixels < maxRangeOf pixels → bRangeOf pixels = maxRangeOf pixels →
      selectChannel pixels = Channel.b) ∧
    (gRangeOf pixels < maxRangeOf pixels → bRangeOf pixels < maxRangeOf pixels →
      selectChannel pixels = Channel.r) ∧
    (rRangeOf pixels = gRangeOf pixels → gRangeOf pixels = bRangeOf pixels →
      selectChannel pixels = Channel.g) := by
  refine ⟨fun hg => ?_, fun hg hb => ?_, fun hg hb => ?_, fun hrg hgb => ?_⟩
  · unfold selectChannel
    rw [if_pos hg.symm]
  · unfold selectChannel
    rw [if_neg (by omega), if_pos hb.symm]
  · unfold selectChannel
    rw [if_neg (by omega), if_neg (by omega)]
  · have hmax : maxRangeOf pixels = gRangeOf pixels := by
      unfold maxRangeOf
      rw [hrg, hgb, max_self, max_self, ← hgb]
    unfold selectChannel
    rw [if_pos hmax]

/-- C3 witness: concrete buckets exercising each branch of the
priority — a red-green tie goes to green, a red-blue tie goes to blue,
and a strictly greatest red range goes to red. -/
theorem selectChannel_tie_priority_witness :
    selectChannel [⟨0, 0, 0⟩, ⟨10, 10, 5⟩] = Channel.g ∧
    selectChannel [⟨0, 0, 0⟩, ⟨10, 5, 10⟩] = Channel.b ∧
    selectChannel [⟨0, 0, 0⟩, ⟨10, 5, 7⟩] = Channel.r :=
  ⟨(selectChannel_tie_priority [⟨0, 0, 0⟩, ⟨10, 10, 5⟩]).1 (by decide),
   (selectChannel_tie_priority [⟨0, 0, 0⟩, ⟨10, 5, 10⟩]).2.1
     (by decide) (by decide),
   (selectChannel_tie_priority [⟨0, 0, 0⟩, ⟨10, 5, 7⟩]).2.2.1
     (by decide) (by decide)⟩

/-- C4: the terminal buckets of the `medianCut` recursion partition the
input: their concatenation is a permutation of the input pixel list (no
pixel lost or duplicated), and `medianCut` returns exactly the average
color of each leaf bucket in leaf order. -/
theorem medianCut_buckets_partition (pixels : List RGB) (depth : Nat) :
    ((medianCutBuckets pixels depth).flatten).Perm pixels ∧
    medianCut pixels depth =
      (medianCutBuckets pixels depth).map averageColor :=
  ⟨medianCutBuckets_flatten_perm depth pixels,
   medianCut_eq_buckets_map depth pixels⟩

/-- C5: the quantizer is deterministic — identical pixel lists and
identical requested counts give identical outputs. -/
theorem extractColorsCore_deterministic (p₁ p₂ : List RGB) (n₁ n₂ : Nat)
    (hp : p₁ = p₂) (hn : n₁ = n₂) :
    extractColorsCore p₁ n₁ = extractColorsCore p₂ n₂ := by
  rw [hp, hn]

/-- C5 witness: determinism at a concrete input. -/
theorem extractColorsCore_deterministic_witness :
    ([⟨1, 2, 3⟩] : List RGB) = [⟨1, 2, 3⟩] ∧ (6 : Nat) = 6 ∧
    extractColorsCore [⟨1, 2, 3⟩] 6 = extractColorsCore [⟨1, 2, 3⟩] 6 :=
  ⟨rfl, rfl, extractColorsCore_deterministic [⟨1, 2, 3⟩] [⟨1, 2, 3⟩] 6 6 rfl rfl⟩

/-- C10: `medianCut` mutates its argument only through the top-level
in-place sort (recursive calls operate on `slice` copies): the caller's
array afterwards holds the same multiset of pixels, and the order can
genuinely change, as the concrete two-pixel run shows. -/
theorem medianCut_frame_effect :
    (∀ (pixels : List RGB) (depth : Nat),
      (medianCutFinal pixels depth).Perm pixels) ∧
    medianCutFinal [⟨2, 0, 0⟩, ⟨1, 0, 0⟩] 1 = [⟨1, 0, 0⟩, ⟨2, 0, 0⟩] := by
  constructor
  · intro pixels depth
    match depth with
    | 0 => exact List.Perm.refl _
    | d + 1 =>
      simp only [medianCutFinal]
      split
      · exact List.Perm.refl _
      · exact sortByChannel_perm _ _
  · decide

/-- The color-stop strings produced from an index-enumerated color
list agree with zipping the colors against the stop list, whenever the
stop list is long enough. -/
theorem gradientStops_enumFrom (colors : List ColorInfo) :
    ∀ (i : Nat) (stops : List Nat), i + colors.length ≤ stops.length →
      ((colors.enumFrom i).map fun ic =>
          ic.2.hex ++ " " ++ stopAt stops ic.1 ++ "%") =
        List.zipWith (fun c s => c.hex ++ " " ++ toString s ++ "%")
          colors (stops.drop i) := by
  induction colors with
  | nil =>
    intro i stops _
    simp
  | cons c cs ih =>
    intro i stops hlen
    have hi : i < stops.length := by
      simp only [List.length_cons] at hlen
      omega
    rw [List.enumFrom_cons, List.map_cons, List.drop_eq_getElem_cons hi,
      List.zipWith_cons_cons]
    congr 1
    · unfold stopAt
      rw [List.getElem?_eq_getElem hi]
    · refine ih (i + 1) stops ?_
      simp only [List.length_cons] at hlen
      omega

/-- C6: `generateGradient` renders exactly
"linear-gradient(ANGLEdeg, hex1 stop1%, hex2 stop2%, ...)" with the
color-stop pairs in input order (no sorting, no deduplication). -/
theorem generateGradient_format (colors : List ColorInfo) (angle : Nat)
    (stops : List Nat) (_hne : colors ≠ [])
    (hlen : stops.length = colors.length) :
    generateGradient colors angle stops =
      "linear-gradient(" ++ toString angle ++ "deg, " ++
        String.intercalate ", "
          (List.zipWith (fun c s => c.hex ++ " " ++ toString s ++ "%")
            colors stops) ++ ")" := by
  have h := gradientStops_enumFrom colors 0 stops (by omega)
  rw [List.drop_zero] at h
  unfold generateGradient
  rw [List.enum_eq_enumFrom, h]

/-- C6 witness: the spec's concrete example renders exactly as
claimed. -/
theorem generateGradient_format_witness :
    generateGradient
        [⟨"id1", ⟨255, 0, 0⟩, "#ff0000", 0⟩, ⟨"id2", ⟨0, 0, 255⟩, "#0000ff", 1⟩]
        90 [0, 100] =
      "linear-gradient(90deg, #ff0000 0%, #0000ff 100%)" := by
  rw [generateGradient_format _ _ _ (by decide) (by decide)]
  rfl

/-- C7 counterexample: a pixel whose three channels are all exactly
240 satisfies the claim's "all channels ≥ 240" premise yet passes the
filter, because the code's near-white test is the strict
`r > 240 && g > 240 && b > 240`. -/
theorem filterPixels_white240_counterexample :
    (∀ p ∈ [(⟨240, 240, 240, 255⟩ : RGBA)],
      240 ≤ p.r ∧ 240 ≤ p.g ∧ 240 ≤ p.b) ∧
    filterPixels [⟨240, 240, 240, 255⟩] ≠ [] := by
  decide

/-- C7 (amended): every decoded pixel with all three channels
strictly above 240 is excluded by the near-white rule, so an image
made of such pixels filters to the empty list. -/
theorem filterPixels_white_empty (data : List RGBA)
    (h : ∀ p ∈ data, 240 < p.r ∧ 240 < p.g ∧ 240 < p.b) :
    filterPixels data = [] := by
  unfold filterPixels
  rw [List.filter_eq_nil_iff.mpr ?_]
  · rfl
  · intro p hp
    obtain ⟨h1, h2, h3⟩ := h p hp
    simp [keepPixel, h1, h2, h3]

/-- C7 witness: a concrete one-pixel all-white image filters to the
empty pixel list. -/
theorem filterPixels_white_empty_witness :
    filterPixels [⟨250, 250, 250, 255⟩] = [] :=
  filterPixels_white_empty _ (by decide)

set_option maxRecDepth 8000 in
/-- On 0..255, the padded hex encoding is exactly the two base-16
digit characters. -/
theorem toHexPadded_eq_digits :
    ∀ n : Nat, n < 256 →
      toHexPadded n = [Nat.digitChar (n / 16), Nat.digitChar (n % 16)] := by
  decide

/-- Each base-16 digit character is a lowercase hexadecimal
character. -/
theorem digitChar_mem_hex :
    ∀ d : Nat, d < 16 → Nat.digitChar d ∈ ("0123456789abcdef").data := by
  decide

/-- The decoder inverts the base-16 digit characters. -/
theorem hexDigitVal_digitChar :
    ∀ d : Nat, d < 16 → hexDigitVal (Nat.digitChar d) = some d := by
  decide

/-- Reduction of `hexToRgb` on a seven-character '#'-led string. -/
theorem hexToRgb_mk (a1 a2 a3 a4 a5 a6 : Char) :
    hexToRgb (String.mk ('#' :: ([a1, a2] ++ [a3, a4] ++ [a5, a6]))) =
      match hexDigitVal a1, hexDigitVal a2, hexDigitVal a3, hexDigitVal a4,
          hexDigitVal a5, hexDigitVal a6 with
      | some h1, some h2, some h3, some h4, some h5, some h6 =>
        some (16 * h1 + h2, 16 * h3 + h4, 16 * h5 + h6)
      | _, _, _, _, _, _ => none := rfl

/-- C8: for channel values in 0..255, `rgbToHex` yields a 7-character
string that starts with '#', continues with six lowercase hex digits
(two zero-padded digits per channel), and decoding it with `hexToRgb`
recovers the original triple, so `rgbToHex` has a left inverse and is
injective on that domain. -/
theorem rgbToHex_roundTrip (r g b : Nat)
    (hr : r ≤ 255) (hg : g ≤ 255) (hb : b ≤ 255) :
    (rgbToHex r g b).length = 7 ∧
    (rgbToHex r g b).data.head? = some '#' ∧
    (∀ c ∈ (rgbToHex r g b).data.tail, c ∈ ("0123456789abcdef").data) ∧
    hexToRgb (rgbToHex r g b) = some (r, g, b) := by
  have er := toHexPadded_eq_digits r (by omega)
  have eg := toHexPadded_eq_digits g (by omega)
  have eb := toHexPadded_eq_digits b (by omega)
  unfold rgbToHex
  rw [er, eg, eb]
  refine ⟨rfl, rfl, ?_, ?_⟩
  · intro c hc
    simp only [List.cons_append, List.nil_append, List.tail_cons,
      List.mem_cons, List.not_mem_nil, or_false] at hc
    rcases hc with h | h | h | h | h | h <;> subst h
    · exact digitChar_mem_hex _ (by omega)
    · exact digitChar_mem_hex _ (by omega)
    · exact digitChar_mem_hex _ (by omega)
    · exact digitChar_mem_hex _ (by omega)
    · exact digitChar_mem_hex _ (by omega)
    · exact digitChar_mem_hex _ (by omega)
  · rw [hexToRgb_mk,
      hexDigitVal_digitChar (r / 16) (by omega),
      hexDigitVal_digitChar (r % 16) (by omega),
      hexDigitVal_digitChar (g / 16) (by omega),
      hexDigitVal_digitChar (g % 16) (by omega),
      hexDigitVal_digitChar (b / 16) (by omega),
      hexDigitVal_digitChar (b % 16) (by omega)]
    show some (16 * (r / 16) + r % 16, 16 * (g / 16) + g % 16,
        16 * (b / 16) + b % 16) = some (r, g, b)
    rw [Nat.div_add_mod, Nat.div_add_mod, Nat.div_add_mod]

/-- C8 witness: the round trip at a concrete triple. -/
theorem rgbToHex_roundTrip_witness :
    (255 : Nat) ≤ 255 ∧ (0 : Nat) ≤ 255 ∧ (17 : Nat) ≤ 255 ∧
    hexToRgb (rgbToHex 255 0 17) = some (255, 0, 17) :=
  ⟨by decide, by decide, by decide,
   (rgbToHex_roundTrip 255 0 17 (by decide) (by decide) (by decide)).2.2.2⟩

/-- C9: the HSL to RGB conversion maps the boundary inputs exactly:
hue 0 to pure red, hue 120 to pure green, hue 240 to pure blue, all at
saturation 100 and lightness 50. -/
theorem hslToRgb_boundary :
    hslToRgb 0 100 50 = (255, 0, 0) ∧
    hslToRgb 120 100 50 = (0, 255, 0) ∧
    hslToRgb 240 100 50 = (0, 0, 255) := by
  refine ⟨?_, ?_, ?_⟩ <;> norm_num [hslToRgb, jsMod, jsRound]

end PrismExtract
